import Mathlib

/-!
Verification of the tiered firearm product-image resolver
(`image_resolver.py`, `image_resolver_free.py` of gun-roster-data).

The two resolver modules are shallowly embedded below.  Pure string and
list manipulation is translated directly; network I/O, image decoding and
re-encoding, and file writes are abstracted as environment oracles passed
in explicitly, so every definition stays executable.  Transport failures
(`requests` exceptions, non-2xx after `raise_for_status`) are modelled by
the `Except TErr` monad: a `try/except` in the source becomes an explicit
`match` that recovers from `.error`, and a call site without a handler
lets the `.error` propagate, exactly as in Python.
-/

/-- A transport failure: timeout, connection error, or a non-2xx HTTP
status surfaced by `raise_for_status()`. -/
inductive TErr : Type
  | timeout
  | connection
  | httpStatus (code : Nat)
deriving DecidableEq, Repr

/-- A raw response body, modelled by its byte length plus an abstract
identity: the resolver source inspects only `len(content)` and otherwise
passes the bytes wholesale to the decode / re-encode / write oracles,
for which the `tag` keeps distinct byte strings distinguishable. -/
structure Bytes : Type where
  len : Nat
  tag : Nat := 0
deriving DecidableEq, Repr

/-- `@dataclass GunRecord` (identical in both resolver modules). -/
structure GunRecord : Type where
  brand : String
  model : String
  caliber : Option String := none
  sku : Option String := none
  roster_id : Option String := none
deriving DecidableEq, Repr

/-- Characters kept verbatim by `_slugify`: the class `[a-z0-9]` of the
regex (the input has already been lowercased). -/
def isSlugChar (c : Char) : Bool :=
  ('a' ≤ c && c ≤ 'z') || ('0' ≤ c && c ≤ '9')

/-- `re.sub(r"[^a-z0-9]+", "-", text)`: every maximal run of characters
outside `[a-z0-9]` collapses to a single dash.  The boolean argument
records whether the previous character was inside such a run. -/
def collapseNonSlug : Bool → List Char → List Char
  | _, [] => []
  | inRun, c :: rest =>
    if isSlugChar c then c :: collapseNonSlug false rest
    else if inRun then collapseNonSlug true rest
    else '-' :: collapseNonSlug true rest

/-- Python `str.strip("-")`: remove dashes from both ends. -/
def stripDashes (l : List Char) : List Char :=
  ((l.dropWhile (fun c => c = '-')).reverse.dropWhile (fun c => c = '-')).reverse

/-- `_slugify` (defined identically in `image_resolver.py` and
`image_resolver_free.py`): lowercase, collapse non-alphanumeric runs to a
dash, strip dashes at both ends.  Lowercasing is modelled for ASCII,
which covers every brand/model string the repository handles. -/
def slugify (s : String) : String :=
  ⟨stripDashes (collapseNonSlug false (s.data.map Char.toLower))⟩

/-- Python `str.lower()` (ASCII case mapping, which covers the
repository's inputs), implemented on the character list so that it
evaluates inside the kernel. -/
def pyLower (s : String) : String :=
  ⟨s.data.map Char.toLower⟩

/-- Python `str.strip()`: whitespace removed from both ends. -/
def pyStrip (s : String) : String :=
  ⟨((s.data.dropWhile Char.isWhitespace).reverse.dropWhile Char.isWhitespace).reverse⟩

/-- Python `s.startswith(pre)`. -/
def pyStartsWith (s pre : String) : Bool :=
  decide (pre.data <+: s.data)

/-- Python substring containment `needle in hay`. -/
def strContains (hay needle : String) : Bool :=
  decide (needle.data <:+: hay.data)

/-- Lookup in a Python dict modelled as an insertion-ordered association
list with unique keys (`d.get(k)` / `d[k]`). -/
def alookup {β : Type} : List (String × β) → String → Option β
  | [], _ => none
  | p :: rest, k => if p.1 = k then some p.2 else alookup rest k

/-- Python dict assignment `d[k] = v`: replace the value in place when
the key exists, otherwise append the new binding. -/
def aset {β : Type} : List (String × β) → String → β → List (String × β)
  | [], k, v => [(k, v)]
  | p :: rest, k, v => if p.1 = k then (k, v) :: rest else p :: aset rest k v

/-- `list(dict.fromkeys(l))` / `list(set(l))`: de-duplicate keeping the
first occurrence of each element.  (For `set` the source relies only on
membership, which this preserves.) -/
def dedupKeepFirstAux : List String → List String → List String
  | _, [] => []
  | seen, x :: xs =>
    if x ∈ seen then dedupKeepFirstAux seen xs
    else x :: dedupKeepFirstAux (x :: seen) xs

/-- De-duplication entry point with an empty seen set. -/
def dedupKeepFirst (l : List String) : List String :=
  dedupKeepFirstAux [] l

/-- The characters following the first `://` of a URL, if any. -/
def afterScheme : List Char → Option (List Char)
  | ':' :: '/' :: '/' :: rest => some rest
  | _ :: rest => afterScheme rest
  | [] => none

/-- `urllib.parse.urlparse(u).netloc` for the absolute
`scheme://host/path` URLs produced by the search APIs; any string
without a `://` separator yields an empty host. -/
def netloc (u : String) : String :=
  match afterScheme u.data with
  | some rest => ⟨rest.takeWhile (fun c => c ≠ '/')⟩
  | none => ""

/-- `_slugify(f"{brand}-{model}-{g.caliber or ''}")`: the coarse
brand+model+caliber key used for override lookup, computed on the
stripped brand and model exactly as in both `resolve_image` variants. -/
def overrideKeyOf (g : GunRecord) : String :=
  slugify (pyStrip g.brand ++ "-" ++ pyStrip g.model ++ "-" ++ (g.caliber.getD ""))

/-- The full five-field slug `_slugify(f"{brand}-{model}-...-{roster_id}")`
shared by both resolver variants. -/
def slugOf (g : GunRecord) : String :=
  slugify (pyStrip g.brand ++ "-" ++ pyStrip g.model ++ "-" ++ (g.caliber.getD "") ++ "-"
    ++ (g.sku.getD "") ++ "-" ++ (g.roster_id.getD ""))

namespace ImageResolver

/-- `DEFAULT_ALLOW_MANUFACTURERS` of `image_resolver.py`, in source
order (Python dicts preserve insertion order). -/
def DEFAULT_ALLOW_MANUFACTURERS : List (String × List String) :=
  [("glock", ["us.glock.com", "glock.com"]),
   ("smith & wesson", ["www.smith-wesson.com"]),
   ("s&w", ["www.smith-wesson.com"]),
   ("sig sauer", ["www.sigsauer.com"]),
   ("springfield", ["www.springfield-armory.com"]),
   ("ruger", ["www.ruger.com", "ruger.com"]),
   ("cz", ["cz-usa.com", "www.cz-usa.com", "czub.cz"]),
   ("beretta", ["www.beretta.com", "www.beretta.com/en-us/"]),
   ("kimber", ["www.kimberamerica.com"]),
   ("walther", ["www.waltherarms.com", "waltherarms.com"]),
   ("fn", ["www.fnamerica.com", "fnamerica.com"]),
   ("heckler & koch", ["hk-usa.com", "www.hk-usa.com"]),
   ("taurus", ["www.taurususa.com"]),
   ("canik", ["www.canikusa.com"]),
   ("shadow systems", ["shadowsystemscorp.com"]),
   ("springfield armory", ["www.springfield-armory.com"]),
   ("stoeger", ["www.stoegerindustries.com"]),
   ("savage", ["www.savagearms.com"]),
   ("smith and wesson", ["www.smith-wesson.com"])]

/-- `DEFAULT_ALLOW_RETAILERS` of `image_resolver.py`. -/
def DEFAULT_ALLOW_RETAILERS : List String :=
  ["www.budsgunshop.com", "www.galleryofguns.com", "www.sportsmans.com",
   "www.brownells.com", "palmettostatearmory.com", "www.cabelas.com",
   "www.academy.com", "www.turners.com", "www.basspro.com",
   "gun.deals", "www.eurooptic.com", "www.scheels.com"]

/-- A JSON value found under a key of `manufacturer_domains` (or as
`retailer_domains`): either a JSON array of strings, passing the
`isinstance(v, list)` check, or anything else, which fails it. -/
inductive JEntry : Type
  | list (l : List String)
  | nonList
deriving DecidableEq, Repr

/-- Observable states of `config/allowlists.json` as seen by
`_load_allowlists`.  `malformed` covers an unreadable file, invalid
JSON, and any shape that raises inside the `try` (e.g. a non-object
`manufacturer_domains` value, whose `.items()` raises before any merge
happens); `notDict` is well-formed JSON whose top level is not an
object, which the `isinstance(data, dict)` guard skips. -/
inductive AllowFileState : Type
  | absent
  | malformed
  | notDict
  | parsed (manu : Option (List (String × JEntry))) (retail : Option JEntry)

/-- The merge loop of `_load_allowlists`: for each file entry whose
value is a list, `allow_manu[k.lower()] = v`; other values are skipped
by the `isinstance` check. -/
def applyManuOverrides : List (String × List String) → List (String × JEntry) →
    List (String × List String)
  | base, [] => base
  | base, (k, .list l) :: rest => applyManuOverrides (aset base (pyLower k) l) rest
  | base, (_, .nonList) :: rest => applyManuOverrides base rest

/-- `_load_allowlists()`: start from the built-in defaults and merge the
optional override file; every failure path falls back to the defaults. -/
def load_allowlists : AllowFileState → List (String × List String) × List String
  | .absent => (DEFAULT_ALLOW_MANUFACTURERS, DEFAULT_ALLOW_RETAILERS)
  | .malformed => (DEFAULT_ALLOW_MANUFACTURERS, DEFAULT_ALLOW_RETAILERS)
  | .notDict => (DEFAULT_ALLOW_MANUFACTURERS, DEFAULT_ALLOW_RETAILERS)
  | .parsed manu retail =>
    (match manu with
     | none => DEFAULT_ALLOW_MANUFACTURERS
     | some entries => applyManuOverrides DEFAULT_ALLOW_MANUFACTURERS entries,
     match retail with
     | some (.list l) => l
     | _ => DEFAULT_ALLOW_RETAILERS)

/-- One raw result of the Bing web-search response
(`item.get("url")` may be missing). -/
structure WebItem : Type where
  url : Option String := none
deriving DecidableEq, Repr

/-- One raw result of the Bing image-search response. -/
structure ImgItem : Type where
  hostPageUrl : Option String := none
  contentUrl : Option String := none
  thumbnailUrl : Option String := none
deriving DecidableEq, Repr

/-- What `_extract_page_image` reads off a fetched page: the JSON-LD
Product image list (`_jsonld_images`, empty when `extruct` is missing or
parsing fails) and the `og:image` content (`_og_image`). -/
structure PageData : Type where
  jsonldImages : List String := []
  ogImage : Option String := none
deriving DecidableEq, Repr

/-- Environment of `image_resolver.py`: capability flags, hashing, and
every network / codec / filesystem effect as an oracle.  `download u`
is `requests.get(u)` + `raise_for_status()` + `.content`; `decode` is
`cv2.imdecode` returning the decoded height and width (`none` covers
both a `None` result and an exception in the decode block, which the
source treats identically); `faceCount` is the Haar-cascade face count,
`none` meaning the inner face-detection `try` raised (which the source
swallows); `writeOk` is `dest_path.write_bytes`; `reencode` is the
PIL open/convert/transpose/save chain, `none` meaning it raised. -/
structure Env : Type where
  apiKey : Bool
  hash : String → String
  download : String → Except TErr Bytes
  opencvOk : Bool
  decode : Bytes → Option (Nat × Nat)
  faceCount : Bytes → Option Nat
  pilOk : Bool
  writeOk : Bytes → Bool
  reencode : Bytes → Option Bytes
  web : String → Except TErr (List WebItem)
  image : String → Except TErr (List ImgItem)
  page : String → Except TErr PageData
  urljoin : String → String → String

/-- `_strip_exif_and_save(content, dest_path)`.  Returns the source's
boolean result paired with the bytes this call left at `dest_path`
(`none` when nothing was written).  The whole body sits in one `try`:
a failing `write_bytes` returns `False` with nothing written, and a
failure anywhere in the PIL re-encode chain returns `False` with the
originally written bytes still on disk. -/
def strip_exif_and_save (env : Env) (content : Bytes) (_dest : String) :
    Bool × Option Bytes :=
  if env.writeOk content then
    if env.pilOk then
      match env.reencode content with
      | some b => (true, some b)
      | none => (false, some content)
    else (true, some content)
  else (false, none)

/-- `_download_and_validate(url, dest_path)`.  Transport failures of the
download propagate (`raise_status` has no handler here); the byte-length
floor, decode, resolution, aspect and face checks reject with `False`;
`size == 0` for a `h*w*3`-element array is `h*w = 0`; the aspect ratio
`w / max(h, 1)` is computed in `ℚ`, which agrees with the source's float
comparison against 0.8 and 2.2 for all realistic pixel dimensions. -/
def download_and_validate (env : Env) (url : String) (dest : String) :
    Except TErr (Bool × Option Bytes) :=
  match env.download url with
  | .error e => .error e
  | .ok content =>
    if content.len < 30000 then .ok (false, none)
    else if env.opencvOk then
      match env.decode content with
      | none => .ok (false, none)
      | some (h, w) =>
        if h * w = 0 then .ok (false, none)
        else if min h w < 900 then .ok (false, none)
        else if ((w : ℚ) / ((max h 1 : ℕ) : ℚ) < 4 / 5 ∨
                 (w : ℚ) / ((max h 1 : ℕ) : ℚ) > 11 / 5) then .ok (false, none)
        else
          match env.faceCount content with
          | some n =>
            if 0 < n then .ok (false, none)
            else .ok (strip_exif_and_save env content dest)
          | none => .ok (strip_exif_and_save env content dest)
    else .ok (strip_exif_and_save env content dest)

/-- The loop body of `_pick_first_valid`, carrying the `seen` set:
empty and already-seen URLs are skipped, a validated URL is returned,
and both a `False` verdict and a raised transport error (`except ...:
continue`) move on to the next candidate. -/
def pick_first_valid_aux (env : Env) (dest : String) :
    List String → List String → Option String
  | _, [] => none
  | seen, u :: rest =>
    if u = "" ∨ u ∈ seen then pick_first_valid_aux env dest seen rest
    else
      match download_and_validate env u dest with
      | .ok (true, _) => some u
      | _ => pick_first_valid_aux env dest (u :: seen) rest

/-- `_pick_first_valid(urls, dest)`. -/
def pick_first_valid (env : Env) (urls : List String) (dest : String) : Option String :=
  pick_first_valid_aux env dest [] urls

/-- `_extract_page_image(url)`: a failed fetch yields `[]`; JSON-LD
Product images win over the `og:image` fallback (`if not imgs`), an
empty `og` content is falsy and ignored, and every result is
absolutized with `urljoin`. -/
def extract_page_image (env : Env) (url : String) : List String :=
  match env.page url with
  | .error _ => []
  | .ok pd =>
    (if pd.jsonldImages.isEmpty then
       match pd.ogImage with
       | some og => if og = "" then [] else [og]
       | none => []
     else pd.jsonldImages).map (env.urljoin url)

/-- The `for page_url in urls` loops of passes 1 and 2: extract the
candidates of each page and return the first validated one. -/
def tryPages (env : Env) (dest : String) : List String → Option String
  | [] => none
  | pageUrl :: rest =>
    match pick_first_valid env (extract_page_image env pageUrl) dest with
    | some chosen => some chosen
    | none => tryPages env dest rest

/-- The `" (site:a OR site:b ...)"` filter appended to the query. -/
def siteFilter (sites : List String) : String :=
  " (" ++ String.intercalate " OR " (sites.map (fun s => "site:" ++ s)) ++ ")"

/-- `_bing_web_search(query, sites)`: no API key or no sites yields
`[]`; otherwise the web request's transport failure propagates, and the
returned page URLs are kept only when their host is in `sites`. -/
def bing_web_search (env : Env) (query : String) (sites : List String) :
    Except TErr (List String) :=
  if env.apiKey = false then .ok []
  else if sites = [] then .ok []
  else
    match env.web (query ++ siteFilter sites) with
    | .error e => .error e
    | .ok items =>
      .ok (items.filterMap fun it =>
        match it.url with
        | none => none
        | some url =>
          if url = "" then none
          else if sites.contains (netloc url) then some url else none)

/-- Python `a or b` on optional strings: an absent or empty `a` falls
through to `b`. -/
def pyOrStr (a b : Option String) : Option String :=
  match a with
  | some s => if s = "" then b else some s
  | none => b

/-- `_bing_image_search(query, allow_hosts)`: no API key yields `[]`;
otherwise a transport failure propagates; each result is kept when the
allow set is empty (`if allow and ...` — an empty set disables the
filter) or its host-page host is allowed, and contributes
`contentUrl or thumbnailUrl` when that is non-empty. -/
def bing_image_search (env : Env) (query : String) (allowHosts : List String) :
    Except TErr (List String) :=
  if env.apiKey = false then .ok []
  else
    match env.image query with
    | .error e => .error e
    | .ok items =>
      .ok (items.filterMap fun v =>
        if allowHosts ≠ [] ∧ ¬ allowHosts.contains (netloc (v.hostPageUrl.getD "")) then
          none
        else
          match pyOrStr v.contentUrl v.thumbnailUrl with
          | some c => if c = "" then none else some c
          | none => none)

/-- The manufacturer site selection of `resolve_image` (pass 1 setup):
keys of the allowlist that are substrings of the lowercased brand
contribute their domains in order, then `list(dict.fromkeys(...))`
de-duplicates keeping first occurrences. -/
def manuSites (allowManu : List (String × List String)) (brandLc : String) :
    List String :=
  dedupKeepFirst
    (allowManu.foldl (fun acc p => if strContains brandLc p.1 then acc ++ p.2 else acc) [])

/-- The destination path `images/{slug}-{_hash(base_query)}.jpg` of
`resolve_image`, with `base_query = f"{brand} {model}"`. -/
def destPath (env : Env) (g : GunRecord) : String :=
  "images/" ++ slugOf g ++ "-" ++ env.hash (pyStrip g.brand ++ " " ++ pyStrip g.model) ++ ".jpg"

/-- Pass 3 of `resolve_image`: the general image search restricted to
`list(set(allow_retail + sum(allow_manu.values(), [])))`. -/
def pass3 (env : Env) (g : GunRecord) (allowManu : List (String × List String))
    (allowRetail : List String) : Except TErr (Option String × Option String) :=
  match bing_image_search env (pyStrip g.brand ++ " " ++ pyStrip g.model)
      (dedupKeepFirst (allowRetail ++ (allowManu.map Prod.snd).flatten)) with
  | .error e => .error e
  | .ok cands =>
    match pick_first_valid env cands (destPath env g) with
    | some chosen => .ok (some (destPath env g), some chosen)
    | none => .ok (none, none)

/-- Pass 2 of `resolve_image`: retailer pages via the site-restricted
web search. -/
def pass2 (env : Env) (g : GunRecord) (allowManu : List (String × List String))
    (allowRetail : List String) : Except TErr (Option String × Option String) :=
  match bing_web_search env (pyStrip g.brand ++ " " ++ pyStrip g.model) allowRetail with
  | .error e => .error e
  | .ok pages =>
    match tryPages env (destPath env g) pages with
    | some chosen => .ok (some (destPath env g), some chosen)
    | none => pass3 env g allowManu allowRetail

/-- Pass 1 of `resolve_image`: manufacturer pages, only when the brand
matched some manufacturer keys (`if manu_sites:`). -/
def pass1 (env : Env) (g : GunRecord) (allowManu : List (String × List String))
    (allowRetail : List String) : Except TErr (Option String × Option String) :=
  if manuSites allowManu (pyLower (pyStrip g.brand)) = [] then pass2 env g allowManu allowRetail
  else
    match bing_web_search env (pyStrip g.brand ++ " " ++ pyStrip g.model)
        (manuSites allowManu (pyLower (pyStrip g.brand))) with
    | .error e => .error e
    | .ok urls =>
      match tryPages env (destPath env g) urls with
      | some chosen => .ok (some (destPath env g), some chosen)
      | none => pass2 env g allowManu allowRetail

/-- The body of `resolve_image` after `_load_allowlists()`: bail out on
a blank brand or model, try the hard override (whose value must be
truthy, i.e. non-empty), then passes 1 to 3. -/
def resolveWithPolicy (env : Env) (allowManu : List (String × List String))
    (allowRetail : List String) (overrides : List (String × String)) (g : GunRecord) :
    Except TErr (Option String × Option String) :=
  if pyStrip g.brand = "" ∨ pyStrip g.model = "" then .ok (none, none)
  else
    match alookup overrides (overrideKeyOf g) with
    | some ov =>
      if ov = "" then pass1 env g allowManu allowRetail
      else
        match pick_first_valid env [ov] (destPath env g) with
        | some _ => .ok (some (destPath env g), some ov)
        | none => pass1 env g allowManu allowRetail
    | none => pass1 env g allowManu allowRetail

/-- `resolve_image(g)` of `image_resolver.py`: load the trust policy
once, then run the tier cascade. -/
def resolve_image (env : Env) (fs : AllowFileState)
    (overrides : List (String × String)) (g : GunRecord) :
    Except TErr (Option String × Option String) :=
  resolveWithPolicy env (load_allowlists fs).1 (load_allowlists fs).2 overrides g

end ImageResolver

namespace ImageResolverFree

/-- `MIN_EDGE` of `image_resolver_free.py`. -/
def MIN_EDGE : Nat := 900

/-- One entry of `data/oem_image_index.json` as read by the free
resolver, which only consults `rec.get("image")`; an entry without an
image (or an empty record, which is falsy) is `image := none`. -/
structure IndexRec : Type where
  image : Option String := none
deriving DecidableEq, Repr

/-- The fields of `config/allowlists.json` read by the free resolver
(loaded with `_load_json(..., {})`, so an absent file is the empty
object).  `brand_hints` maps a brand to its `seed_paths` list, the only
hint field the resolver reads (`hints.get("seed_paths", [])`);
`retailer_paths := none` means the key is absent and the built-in
default path templates apply. -/
structure Allowlists : Type where
  manufacturer_domains : List (String × List String) := []
  brand_hints : List (String × List String) := []
  retailer_domains : List String := []
  retailer_paths : Option (List String) := none

/-- Environment of `image_resolver_free.py`: as for the paid variant,
but without search APIs and without the face check;
`extractFromPage u` is `_extract_from_page(u)`, which catches every
failure internally and returns an optional image URL and name. -/
structure Env : Type where
  hash : String → String
  download : String → Except TErr Bytes
  opencvOk : Bool
  decode : Bytes → Option (Nat × Nat)
  pilOk : Bool
  writeOk : Bytes → Bool
  reencode : Bytes → Option Bytes
  extractFromPage : String → Option String × Option String
  urljoin : String → String → String

/-- `_strip_exif_and_save` of the free module (same body as the paid
one): the source's boolean result paired with the bytes the call left
at `dest_path`. -/
def strip_exif_and_save (env : Env) (content : Bytes) (_dest : String) :
    Bool × Option Bytes :=
  if env.writeOk content then
    if env.pilOk then
      match env.reencode content with
      | some b => (true, some b)
      | none => (false, some content)
    else (true, some content)
  else (false, none)

/-- `_download_and_validate` of the free module: identical to the paid
one except that there is no face-detection step and the minimum edge is
the `MIN_EDGE` constant. -/
def download_and_validate (env : Env) (url : String) (dest : String) :
    Except TErr (Bool × Option Bytes) :=
  match env.download url with
  | .error e => .error e
  | .ok content =>
    if content.len < 30000 then .ok (false, none)
    else if env.opencvOk then
      match env.decode content with
      | none => .ok (false, none)
      | some (h, w) =>
        if h * w = 0 then .ok (false, none)
        else if min h w < MIN_EDGE then .ok (false, none)
        else if ((w : ℚ) / ((max h 1 : ℕ) : ℚ) < 4 / 5 ∨
                 (w : ℚ) / ((max h 1 : ℕ) : ℚ) > 11 / 5) then .ok (false, none)
        else .ok (strip_exif_and_save env content dest)
    else .ok (strip_exif_and_save env content dest)

/-- The destination path `images/{slug}-{_hash(brand + model)}.jpg` of
the free `resolve_image` (hash input has no separating space here). -/
def destPath (env : Env) (g : GunRecord) : String :=
  "images/" ++ slugOf g ++ "-" ++ env.hash (pyStrip g.brand ++ pyStrip g.model) ++ ".jpg"

/-- The index key chosen by the free `resolve_image`: the exact
`brand.lower()::model.lower()` key when present, else the first index
key (in index order) that starts with the brand prefix and contains the
lowercased model as a substring, else the unchanged exact key (whose
later lookup then misses). -/
def indexKey (index : List (String × IndexRec)) (g : GunRecord) : String :=
  if (index.map Prod.fst).contains (pyLower (pyStrip g.brand) ++ "::" ++ pyLower (pyStrip g.model))
  then pyLower (pyStrip g.brand) ++ "::" ++ pyLower (pyStrip g.model)
  else
    ((index.map Prod.fst).find? (fun k =>
        pyStartsWith k (pyLower (pyStrip g.brand) ++ "::")
          && strContains k (pyLower (pyStrip g.model)))).getD
      (pyLower (pyStrip g.brand) ++ "::" ++ pyLower (pyStrip g.model))

/-- The manufacturer-domain selection of the free `resolve_image`:
`allowlists.get("manufacturer_domains", {}).get(brand.lower()) or []` —
an exact lookup of the full lowercased brand, unlike the paid variant's
substring union. -/
def manuDomains (allow : Allowlists) (brand : String) : List String :=
  (alookup allow.manufacturer_domains (pyLower brand)).getD []

/-- `p.replace("{model}", _slugify(model)).replace("{model_raw}",
model.replace(" ", "-"))`. -/
def replaceTokens (p slugModel modelRaw : String) : String :=
  (p.replace "{model}" slugModel).replace "{model_raw}" modelRaw

/-- The inner `for p in try_paths` loop of the heuristic tiers: build
the candidate URL, extract an image from the page, and validate it.
`_extract_from_page` never raises, but the unguarded
`_download_and_validate` call propagates transport failures. -/
def tryPathsOnDomain (env : Env) (dest d slugModel modelRaw : String) :
    List String → Except TErr (Option String)
  | [] => .ok none
  | p :: ps =>
    match env.extractFromPage (env.urljoin ("https://" ++ d) (replaceTokens p slugModel modelRaw)) with
    | (some img, _) =>
      if img = "" then tryPathsOnDomain env dest d slugModel modelRaw ps
      else
        match download_and_validate env img dest with
        | .error e => .error e
        | .ok (true, _) => .ok (some img)
        | .ok (false, _) => tryPathsOnDomain env dest d slugModel modelRaw ps
    | (none, _) => tryPathsOnDomain env dest d slugModel modelRaw ps

/-- The outer `for d in domains` loop of the heuristic tiers. -/
def tryDomains (env : Env) (dest slugModel modelRaw : String) (paths : List String) :
    List String → Except TErr (Option String)
  | [] => .ok none
  | d :: ds =>
    match tryPathsOnDomain env dest d slugModel modelRaw paths with
    | .error e => .error e
    | .ok (some img) => .ok (some img)
    | .ok none => tryDomains env dest slugModel modelRaw paths ds

/-- The retailer-heuristics tier (last tier of the free resolver),
followed by the final `(None, None)`. -/
def retailTier (env : Env) (allow : Allowlists) (g : GunRecord) :
    Except TErr (Option String × Option String) :=
  match tryDomains env (destPath env g) (slugify (pyStrip g.model))
      (((pyStrip g.model).replace " " "-"))
      (allow.retailer_paths.getD ["/product/{model}", "/shop/{model}"])
      allow.retailer_domains with
  | .error e => .error e
  | .ok (some img) => .ok (some (destPath env g), some img)
  | .ok none => .ok (none, none)

/-- The manufacturer-heuristics tier of the free resolver: seed paths
from `brand_hints` applied to the exact-lookup manufacturer domains. -/
def manuTier (env : Env) (allow : Allowlists) (g : GunRecord) :
    Except TErr (Option String × Option String) :=
  match tryDomains env (destPath env g) (slugify (pyStrip g.model))
      (((pyStrip g.model).replace " " "-"))
      ((alookup allow.brand_hints (pyLower (pyStrip g.brand))).getD [])
      (manuDomains allow (pyStrip g.brand)) with
  | .error e => .error e
  | .ok (some img) => .ok (some (destPath env g), some img)
  | .ok none => retailTier env allow g

/-- The local-index tier of the free resolver: look up the (possibly
fuzzy-matched) key and try the entry's image URL when present and
non-empty (`if rec and rec.get("image")`); the unguarded download
propagates transport failures. -/
def indexTier (env : Env) (index : List (String × IndexRec)) (allow : Allowlists)
    (g : GunRecord) : Except TErr (Option String × Option String) :=
  match alookup index (indexKey index g) with
  | some rec =>
    match rec.image with
    | some img =>
      if img = "" then manuTier env allow g
      else
        match download_and_validate env img (destPath env g) with
        | .error e => .error e
        | .ok (true, _) => .ok (some (destPath env g), some img)
        | .ok (false, _) => manuTier env allow g
    | none => manuTier env allow g
  | none => manuTier env allow g

/-- `resolve_image(g)` of `image_resolver_free.py`: bail out on a blank
brand or model, try the hard override (`if ov_key in overrides`, no
truthiness check on the value, unguarded download), then the index,
manufacturer-heuristics, and retailer-heuristics tiers. -/
def resolve_image (env : Env) (overrides : List (String × String))
    (index : List (String × IndexRec)) (allow : Allowlists) (g : GunRecord) :
    Except TErr (Option String × Option String) :=
  if pyStrip g.brand = "" ∨ pyStrip g.model = "" then .ok (none, none)
  else
    match alookup overrides (overrideKeyOf g) with
    | some ov =>
      match download_and_validate env ov (destPath env g) with
      | .error e => .error e
      | .ok (true, _) => .ok (some (destPath env g), some ov)
      | .ok (false, _) => indexTier env index allow g
    | none => indexTier env index allow g

end ImageResolverFree

/-- Decidable equality of `Except` results, so that concrete resolver
runs can be settled by `decide`. -/
instance decEqExcept {e a : Type} [DecidableEq e] [DecidableEq a] : DecidableEq (Except e a)
  | .ok u, .ok v =>
    if h : u = v then .isTrue (congrArg Except.ok h)
    else .isFalse (fun hh => h (Except.ok.inj hh))
  | .error u, .error v =>
    if h : u = v then .isTrue (congrArg Except.error h)
    else .isFalse (fun hh => h (Except.error.inj hh))
  | .ok _, .error _ => .isFalse (fun hh => Except.noConfusion hh)
  | .error _, .ok _ => .isFalse (fun hh => Except.noConfusion hh)

/-- A response body of exactly 30000 bytes (the byte-length floor). -/
def okBytes : Bytes := { len := 30000, tag := 7 }

/-- A response body one byte below the byte-length floor. -/
def tinyBytes : Bytes := { len := 29999, tag := 3 }

/-- Paid-variant environment whose every download succeeds with a body
at the byte floor while the decode capability is absent and the search
APIs are disabled; used to exercise the override tier in isolation. -/
def pinEnv : ImageResolver.Env where
  apiKey := false
  hash := fun _ => "abcdef1234"
  download := fun _ => .ok okBytes
  opencvOk := false
  decode := fun _ => none
  faceCount := fun _ => none
  pilOk := false
  writeOk := fun _ => true
  reencode := fun _ => none
  web := fun _ => .ok []
  image := fun _ => .ok []
  page := fun _ => .ok {}
  urljoin := fun _ b => b

/-- Paid-variant environment with an API key whose web-search call
times out. -/
def searchFailEnv : ImageResolver.Env :=
  { pinEnv with apiKey := true, web := fun _ => .error .timeout }

/-- Paid-variant environment with the full decode capability: every
download yields `okBytes`, decoded as a face-free 1000 by 1000 image,
and the codec path succeeds without PIL re-encoding. -/
def fullCheckEnv : ImageResolver.Env :=
  { pinEnv with
    opencvOk := true
    decode := fun _ => some (1000, 1000)
    faceCount := fun _ => some 0 }

/-- Like `fullCheckEnv` but with PIL available and a re-encode chain
that always raises. -/
def reencodeFailEnv : ImageResolver.Env :=
  { fullCheckEnv with
    pilOk := true
    reencode := fun _ => none }

/-- Paid-variant environment where one specific URL fails with a
connection error and every other download validates. -/
def mixedEnv : ImageResolver.Env :=
  { pinEnv with
    download := fun u => if u = "https://bad/x.jpg" then .error .connection else .ok okBytes }

/-- A Bing image-search result hosted on a domain that belongs to no
allowlist. -/
def evilItem : ImageResolver.ImgItem :=
  { hostPageUrl := some "https://evil.com/p", contentUrl := some "https://evil.com/img.jpg" }

/-- Paid-variant environment with an API key whose image search returns
only `evilItem` and whose web search returns nothing. -/
def evilEnv : ImageResolver.Env :=
  { pinEnv with apiKey := true, image := fun _ => .ok [evilItem] }

/-- Paid-variant environment with an API key whose web search returns a
single result on a retailer domain together with one off-list result. -/
def webEnv : ImageResolver.Env :=
  { pinEnv with
    apiKey := true
    web := fun _ => .ok [{ url := some "https://www.ruger.com/p1" },
                         { url := some "https://elsewhere.net/p2" }] }

/-- An allowlist override file that replaces every built-in
manufacturer list and the retailer list with the empty list. -/
def emptiedAllowFile : ImageResolver.AllowFileState :=
  .parsed (some (ImageResolver.DEFAULT_ALLOW_MANUFACTURERS.map
    (fun p => (p.1, ImageResolver.JEntry.list [])))) (some (.list []))

/-- A well-formed allowlist override file replacing the `glock` entry
(spelled with a capital letter, lowered on merge), adding a new brand,
leaving `cz` untouched through a non-list value, and replacing the
retailer list. -/
def sampleAllowFile : ImageResolver.AllowFileState :=
  .parsed (some [("Glock", .list ["override.example"]),
                 ("newbrand", .list ["new.example"]),
                 ("cz", .nonList)])
    (some (.list ["retail.example"]))

/-- Free-variant environment whose every download succeeds with a body
at the byte floor, with the decode capability absent and page
extraction finding nothing. -/
def freePinEnv : ImageResolverFree.Env where
  hash := fun _ => "beefbeef00"
  download := fun _ => .ok okBytes
  opencvOk := false
  decode := fun _ => none
  pilOk := false
  writeOk := fun _ => true
  reencode := fun _ => none
  extractFromPage := fun _ => (none, none)
  urljoin := fun _ b => b

/-- Free-variant environment with the full decode capability. -/
def freeFullCheckEnv : ImageResolverFree.Env :=
  { freePinEnv with
    opencvOk := true
    decode := fun _ => some (1000, 1000) }

/-- Like `freeFullCheckEnv` but with PIL available and a re-encode
chain that always raises. -/
def freeReencodeFailEnv : ImageResolverFree.Env :=
  { freeFullCheckEnv with
    pilOk := true
    reencode := fun _ => none }

/-- A one-entry local index whose key requires the fuzzy fallback for
the record `{brand: "Glock", model: "G19"}`. -/
def sampleIndex : List (String × ImageResolverFree.IndexRec) :=
  [("glock::g19 gen5", { image := some "https://i.example/x.jpg" })]

/-- The record of the specified override scenario. -/
def glock19 : GunRecord := { brand := "Glock", model := "19" }

/-- Paid-variant environment whose downloads return a body one byte
below the floor. -/
def tinyEnv : ImageResolver.Env :=
  { pinEnv with download := fun _ => .ok tinyBytes }

/-- Free-variant environment whose downloads return a body one byte
below the floor. -/
def freeTinyEnv : ImageResolverFree.Env :=
  { freePinEnv with download := fun _ => .ok tinyBytes }

/-- Paid-variant full-check environment decoding to 2000 x 1600
(aspect ratio exactly 0.8). -/
def aspect08Env : ImageResolver.Env :=
  { fullCheckEnv with decode := fun _ => some (2000, 1600) }

/-- Paid-variant full-check environment decoding to 2000 x 1580
(aspect ratio 0.79). -/
def aspect079Env : ImageResolver.Env :=
  { fullCheckEnv with decode := fun _ => some (2000, 1580) }

/-- Free-variant full-check environment decoding to 1000 x 2200
(aspect ratio exactly 2.2). -/
def freeAspect22Env : ImageResolverFree.Env :=
  { freeFullCheckEnv with decode := fun _ => some (1000, 2200) }

/-- Free-variant full-check environment decoding to 1000 x 2210
(aspect ratio 2.21). -/
def freeAspect221Env : ImageResolverFree.Env :=
  { freeFullCheckEnv with decode := fun _ => some (1000, 2210) }

/-- A record whose exact index key misses `sampleIndex` but whose
fuzzy fallback hits. -/
def glockG19 : GunRecord := { brand := "Glock", model := "G19" }

/-! ### Helper lemmas about the shared list operations -/

theorem dedupKeepFirstAux_mem (x : String) :
    ∀ (l seen : List String), x ∈ dedupKeepFirstAux seen l ↔ x ∈ l ∧ x ∉ seen := by
  intro l
  induction l with
  | nil => intro seen; simp [dedupKeepFirstAux]
  | cons y ys ih =>
    intro seen
    by_cases hy : y ∈ seen
    · rw [dedupKeepFirstAux, if_pos hy, ih]
      constructor
      · rintro ⟨h1, h2⟩; exact ⟨List.mem_cons_of_mem _ h1, h2⟩
      · rintro ⟨h1, h2⟩
        rcases List.mem_cons.mp h1 with h | h
        · exact absurd (h ▸ hy) h2
        · exact ⟨h, h2⟩
    · rw [dedupKeepFirstAux, if_neg hy]
      by_cases hxy : x = y
      · subst hxy; simp [hy]
      · simp [List.mem_cons, hxy, ih, hy]

theorem dedupKeepFirst_mem (x : String) (l : List String) :
    x ∈ dedupKeepFirst l ↔ x ∈ l := by
  rw [dedupKeepFirst, dedupKeepFirstAux_mem]; simp

theorem dedupKeepFirstAux_nodup :
    ∀ (l seen : List String), (dedupKeepFirstAux seen l).Nodup := by
  intro l
  induction l with
  | nil => intro seen; simp [dedupKeepFirstAux]
  | cons y ys ih =>
    intro seen
    by_cases hy : y ∈ seen
    · rw [dedupKeepFirstAux, if_pos hy]; exact ih seen
    · rw [dedupKeepFirstAux, if_neg hy]
      refine List.nodup_cons.mpr ⟨fun hmem => ?_, ih (y :: seen)⟩
      exact ((dedupKeepFirstAux_mem y ys (y :: seen)).mp hmem).2 (List.mem_cons_self y seen)

theorem dedupKeepFirst_nodup (l : List String) : (dedupKeepFirst l).Nodup :=
  dedupKeepFirstAux_nodup l []

theorem dedupKeepFirstAux_sublist :
    ∀ (l seen : List String), List.Sublist (dedupKeepFirstAux seen l) l := by
  intro l
  induction l with
  | nil => intro seen; simp [dedupKeepFirstAux]
  | cons y ys ih =>
    intro seen
    by_cases hy : y ∈ seen
    · rw [dedupKeepFirstAux, if_pos hy]; exact (ih seen).cons y
    · rw [dedupKeepFirstAux, if_neg hy]; exact (ih (y :: seen)).cons₂ y

theorem dedupKeepFirst_sublist (l : List String) : List.Sublist (dedupKeepFirst l) l :=
  dedupKeepFirstAux_sublist l []

theorem foldl_extend_eq (f : String × List String → Bool) :
    ∀ (l : List (String × List String)) (init : List String),
      l.foldl (fun acc p => if f p then acc ++ p.2 else acc) init
        = init ++ ((l.filter f).map Prod.snd).flatten := by
  intro l
  induction l with
  | nil => intro init; simp
  | cons p ps ih =>
    intro init
    by_cases hp : f p
    · simp only [List.foldl_cons, hp, if_true, ih, List.filter_cons, List.map_cons,
        List.flatten_cons, List.append_assoc]
    · simp only [List.foldl_cons, hp, if_false, ih, List.filter_cons]
      simp [hp]

theorem alookup_aset_self {β : Type} (l : List (String × β)) (k : String) (v : β) :
    alookup (aset l k v) k = some v := by
  induction l with
  | nil => simp [aset, alookup]
  | cons p rest ih =>
    by_cases hp : p.1 = k
    · rw [aset, if_pos hp, alookup, if_pos rfl]
    · rw [aset, if_neg hp, alookup, if_neg hp, ih]

theorem alookup_aset_ne {β : Type} (l : List (String × β)) (k : String) (v : β)
    (k' : String) (h : k ≠ k') : alookup (aset l k v) k' = alookup l k' := by
  induction l with
  | nil => simp [aset, alookup, h]
  | cons p rest ih =>
    by_cases hp : p.1 = k
    · rw [aset, if_pos hp]
      show (if k = k' then some v else alookup rest k') = _
      rw [if_neg h]
      show _ = if p.1 = k' then some p.2 else alookup rest k'
      rw [if_neg (hp ▸ h)]
    · rw [aset, if_neg hp]
      show (if p.1 = k' then some p.2 else alookup (aset rest k v) k') = _
      rw [ih]
      rfl

theorem applyManuOverrides_notin :
    ∀ (entries : List (String × ImageResolver.JEntry))
      (base : List (String × List String)) (k : String),
      k ∉ entries.map (fun p => pyLower p.1) →
      alookup (ImageResolver.applyManuOverrides base entries) k = alookup base k := by
  intro entries
  induction entries with
  | nil => intro base k _; rfl
  | cons p rest ih =>
    intro base k hk
    simp only [List.map_cons, List.mem_cons, not_or] at hk
    obtain ⟨hk1, hk2⟩ := hk
    obtain ⟨k1, e1⟩ := p
    cases e1 with
    | list l1 =>
      rw [ImageResolver.applyManuOverrides, ih _ _ hk2,
        alookup_aset_ne _ _ _ _ (fun hh => hk1 hh.symm)]
    | nonList => rw [ImageResolver.applyManuOverrides, ih _ _ hk2]

theorem applyManuOverrides_mem :
    ∀ (entries : List (String × ImageResolver.JEntry))
      (base : List (String × List String)) (k : String) (l' : List String),
      (k, ImageResolver.JEntry.list l') ∈ entries →
      (entries.map (fun p => pyLower p.1)).Nodup →
      alookup (ImageResolver.applyManuOverrides base entries) (pyLower k) = some l' := by
  intro entries
  induction entries with
  | nil => intro base k l' hmem _; exact absurd hmem (List.not_mem_nil _)
  | cons p rest ih =>
    intro base k l' hmem hnd
    simp only [List.map_cons, List.nodup_cons] at hnd
    obtain ⟨hnd1, hnd2⟩ := hnd
    rcases List.mem_cons.mp hmem with heq | hmem'
    · rw [← heq] at hnd1 ⊢
      rw [ImageResolver.applyManuOverrides,
        applyManuOverrides_notin _ _ _ hnd1, alookup_aset_self]
    · obtain ⟨k1, e1⟩ := p
      cases e1 with
      | list l1 => rw [ImageResolver.applyManuOverrides, ih _ _ _ hmem' hnd2]
      | nonList => rw [ImageResolver.applyManuOverrides, ih _ _ _ hmem' hnd2]

theorem pick_first_valid_aux_congr (env : ImageResolver.Env) (dest : String) :
    ∀ (l s₁ s₂ : List String), (∀ x, x ∈ s₁ ↔ x ∈ s₂) →
      ImageResolver.pick_first_valid_aux env dest s₁ l
        = ImageResolver.pick_first_valid_aux env dest s₂ l := by
  intro l
  induction l with
  | nil => intro s₁ s₂ _; rfl
  | cons u rest ih =>
    intro s₁ s₂ hs
    by_cases hc : u = "" ∨ u ∈ s₁
    · have hc2 : u = "" ∨ u ∈ s₂ := by
        rcases hc with h | h
        · exact Or.inl h
        · exact Or.inr ((hs u).mp h)
      rw [ImageResolver.pick_first_valid_aux, if_pos hc,
        ImageResolver.pick_first_valid_aux, if_pos hc2]
      exact ih s₁ s₂ hs
    · have hc2 : ¬ (u = "" ∨ u ∈ s₂) := by
        intro hh
        rcases hh with h | h
        · exact hc (Or.inl h)
        · exact hc (Or.inr ((hs u).mpr h))
      rw [ImageResolver.pick_first_valid_aux, if_neg hc,
        ImageResolver.pick_first_valid_aux, if_neg hc2]
      cases hdl : ImageResolver.download_and_validate env u dest with
      | error e => exact ih _ _ (by intro x; simp [List.mem_cons, hs x])
      | ok r =>
        obtain ⟨b, bytes⟩ := r
        cases b with
        | true => rfl
        | false => exact ih _ _ (by intro x; simp [List.mem_cons, hs x])

theorem pick_first_valid_aux_skip (env : ImageResolver.Env) (dest u : String)
    (hfail : ∀ b, ImageResolver.download_and_validate env u dest ≠ .ok (true, b)) :
    ∀ (l seen : List String),
      ImageResolver.pick_first_valid_aux env dest (u :: seen) l
        = ImageResolver.pick_first_valid_aux env dest seen l := by
  intro l
  induction l with
  | nil => intro seen; rfl
  | cons v vs ih =>
    intro seen
    by_cases hv : v = "" ∨ v ∈ seen
    · have hv1 : v = "" ∨ v ∈ u :: seen := by
        rcases hv with h | h
        · exact Or.inl h
        · exact Or.inr (List.mem_cons_of_mem _ h)
      rw [ImageResolver.pick_first_valid_aux, if_pos hv1,
        ImageResolver.pick_first_valid_aux, if_pos hv]
      exact ih seen
    · by_cases hvu : v = u
      · subst hvu
        have hv1 : v = "" ∨ v ∈ v :: seen := Or.inr (List.mem_cons_self v seen)
        rw [ImageResolver.pick_first_valid_aux, if_pos hv1,
          ImageResolver.pick_first_valid_aux, if_neg hv]
        cases hdl : ImageResolver.download_and_validate env v dest with
        | error e => rfl
        | ok r =>
          obtain ⟨b, bytes⟩ := r
          cases b with
          | true => exact absurd hdl (hfail bytes)
          | false => rfl
      · have hv1 : ¬ (v = "" ∨ v ∈ u :: seen) := by
          intro hh
          rcases hh with h | h
          · exact hv (Or.inl h)
          · rcases List.mem_cons.mp h with h2 | h2
            · exact hvu h2
            · exact hv (Or.inr h2)
        rw [ImageResolver.pick_first_valid_aux, if_neg hv1,
          ImageResolver.pick_first_valid_aux, if_neg hv]
        cases hdl : ImageResolver.download_and_validate env v dest with
        | error e =>
          rw [pick_first_valid_aux_congr env dest vs (v :: u :: seen) (u :: v :: seen)
            (by intro x; simp [List.mem_cons]; tauto), ih (v :: seen)]
        | ok r =>
          obtain ⟨b, bytes⟩ := r
          cases b with
          | true => rfl
          | false =>
            rw [pick_first_valid_aux_congr env dest vs (v :: u :: seen) (u :: v :: seen)
              (by intro x; simp [List.mem_cons]; tauto), ih (v :: seen)]

theorem resolveWithPolicy_override_hit (env : ImageResolver.Env)
    (allowManu : List (String × List String)) (allowRetail : List String)
    (overrides : List (String × String)) (g : GunRecord) (ov : String) (b : Option Bytes)
    (hb : ¬ (pyStrip g.brand = "" ∨ pyStrip g.model = ""))
    (hov : alookup overrides (overrideKeyOf g) = some ov)
    (hne : ov ≠ "")
    (hdl : ImageResolver.download_and_validate env ov (ImageResolver.destPath env g)
      = .ok (true, b)) :
    ImageResolver.resolveWithPolicy env allowManu allowRetail overrides g
      = .ok (some (ImageResolver.destPath env g), some ov) := by
  have hpick : ImageResolver.pick_first_valid env [ov] (ImageResolver.destPath env g)
      = some ov := by
    rw [ImageResolver.pick_first_valid, ImageResolver.pick_first_valid_aux,
      if_neg (by simp [hne]), hdl]
  rw [ImageResolver.resolveWithPolicy, if_neg hb, hov]
  simp only [if_neg hne, hpick]

theorem resolve_image_override_hit (env : ImageResolver.Env)
    (fs : ImageResolver.AllowFileState)
    (overrides : List (String × String)) (g : GunRecord) (ov : String) (b : Option Bytes)
    (hb : ¬ (pyStrip g.brand = "" ∨ pyStrip g.model = ""))
    (hov : alookup overrides (overrideKeyOf g) = some ov)
    (hne : ov ≠ "")
    (hdl : ImageResolver.download_and_validate env ov (ImageResolver.destPath env g)
      = .ok (true, b)) :
    ImageResolver.resolve_image env fs overrides g
      = .ok (some (ImageResolver.destPath env g), some ov) := by
  rw [ImageResolver.resolve_image]
  exact resolveWithPolicy_override_hit env _ _ overrides g ov b hb hov hne hdl

theorem free_resolve_override_hit (env : ImageResolverFree.Env)
    (overrides : List (String × String)) (index : List (String × ImageResolverFree.IndexRec))
    (allow : ImageResolverFree.Allowlists) (g : GunRecord) (ov : String) (b : Option Bytes)
    (hb : ¬ (pyStrip g.brand = "" ∨ pyStrip g.model = ""))
    (hov : alookup overrides (overrideKeyOf g) = some ov)
    (hdl : ImageResolverFree.download_and_validate env ov (ImageResolverFree.destPath env g)
      = .ok (true, b)) :
    ImageResolverFree.resolve_image env overrides index allow g
      = .ok (some (ImageResolverFree.destPath env g), some ov) := by
  rw [ImageResolverFree.resolve_image, if_neg hb, hov]
  simp only [hdl]

theorem free_resolve_index_hit (env : ImageResolverFree.Env)
    (overrides : List (String × String)) (index : List (String × ImageResolverFree.IndexRec))
    (allow : ImageResolverFree.Allowlists) (g : GunRecord)
    (rec : ImageResolverFree.IndexRec) (img : String) (b : Option Bytes)
    (hb : ¬ (pyStrip g.brand = "" ∨ pyStrip g.model = ""))
    (hov : alookup overrides (overrideKeyOf g) = none)
    (hlook : alookup index (ImageResolverFree.indexKey index g) = some rec)
    (himg : rec.image = some img)
    (hne : img ≠ "")
    (hdl : ImageResolverFree.download_and_validate env img (ImageResolverFree.destPath env g)
      = .ok (true, b)) :
    ImageResolverFree.resolve_image env overrides index allow g
      = .ok (some (ImageResolverFree.destPath env g), some img) := by
  rw [ImageResolverFree.resolve_image, if_neg hb, hov]
  rw [ImageResolverFree.indexTier, hlook]
  simp only [himg, if_neg hne, hdl]

/-! ### Claim theorems -/

/-- C1: for every record whose override key (slug of
brand+model+caliber) is present in the override map and whose pinned
URL downloads and validates, `resolve_image` returns (destination path,
pinned URL) immediately, in both the paid and the free variant.  The
environment quantifies every search, page and index oracle, so the
result is independent of the local index, manufacturer, retailer and
image-search tiers.  In the paid variant the pinned value must also be
non-empty, reflecting the `if ov:` truthiness guard; a URL that
downloads at all is in particular non-empty (`requests` rejects an
empty URL before any transport), so this does not restrict the claim. -/
theorem override_precedence_both_variants :
    (∀ (env : ImageResolver.Env) (fs : ImageResolver.AllowFileState)
       (overrides : List (String × String)) (g : GunRecord) (ov : String) (b : Option Bytes),
       pyStrip g.brand ≠ "" → pyStrip g.model ≠ "" →
       alookup overrides (overrideKeyOf g) = some ov → ov ≠ "" →
       ImageResolver.download_and_validate env ov (ImageResolver.destPath env g)
         = .ok (true, b) →
       ImageResolver.resolve_image env fs overrides g
         = .ok (some (ImageResolver.destPath env g), some ov))
    ∧ (∀ (env : ImageResolverFree.Env) (overrides : List (String × String))
         (index : List (String × ImageResolverFree.IndexRec))
         (allow : ImageResolverFree.Allowlists) (g : GunRecord) (ov : String) (b : Option Bytes),
       pyStrip g.brand ≠ "" → pyStrip g.model ≠ "" →
       alookup overrides (overrideKeyOf g) = some ov →
       ImageResolverFree.download_and_validate env ov (ImageResolverFree.destPath env g)
         = .ok (true, b) →
       ImageResolverFree.resolve_image env overrides index allow g
         = .ok (some (ImageResolverFree.destPath env g), some ov)) := by
  constructor
  · intro env fs overrides g ov b hb hm hov hne hdl
    exact resolve_image_override_hit env fs overrides g ov b (by simp [hb, hm]) hov hne hdl
  · intro env overrides index allow g ov b hb hm hov hdl
    exact free_resolve_override_hit env overrides index allow g ov b (by simp [hb, hm]) hov hdl

/-- Witness for C1: the record `{brand: "Glock", model: "19"}` with the
override key `glock-19` pinned to a URL that validates resolves to the
pinned URL in both variants, whatever the index holds. -/
theorem override_precedence_witness :
    ImageResolver.resolve_image pinEnv .absent
        [("glock-19", "https://pin.example/x.jpg")] glock19
      = .ok (some "images/glock-19-abcdef1234.jpg", some "https://pin.example/x.jpg")
    ∧ ImageResolverFree.resolve_image freePinEnv
        [("glock-19", "https://pin.example/x.jpg")] sampleIndex {} glock19
      = .ok (some "images/glock-19-beefbeef00.jpg", some "https://pin.example/x.jpg") := by
  constructor
  · exact (override_precedence_both_variants.1 pinEnv .absent
      [("glock-19", "https://pin.example/x.jpg")] glock19 "https://pin.example/x.jpg"
      (some okBytes) (by decide) (by decide) (by decide) (by decide) (by decide)).trans
      (by decide)
  · exact (override_precedence_both_variants.2 freePinEnv
      [("glock-19", "https://pin.example/x.jpg")] sampleIndex {} glock19
      "https://pin.example/x.jpg" (some okBytes) (by decide) (by decide) (by decide)
      (by decide)).trans (by decide)

/-- Counterexample to C2 as stated: with an API key present, a timeout
of the Bing web-search request in the manufacturer tier propagates out
of the paid `resolve_image` (`_bing_web_search` calls
`raise_for_status()` with no handler at the call site), instead of
degrading to an empty tier. -/
theorem transport_failure_propagates_cx :
    ImageResolver.resolve_image searchFailEnv .absent [] glock19 = .error .timeout := by
  decide

/-- C2 as amended: transport failures are recovered locally only inside
the candidate-validation loop `_pick_first_valid` of the paid variant
(and inside the page extractors, which catch all fetch errors): a
candidate whose download raises is simply skipped and the loop
continues with the remaining candidates, unchanged.  Failures of the
search-API requests themselves, and of the free variant's unguarded
`_download_and_validate` calls, propagate. -/
theorem transport_failure_skips_candidate :
    ∀ (env : ImageResolver.Env) (dest u : String) (rest : List String) (e : TErr),
      ImageResolver.download_and_validate env u dest = .error e →
      ImageResolver.pick_first_valid env (u :: rest) dest
        = ImageResolver.pick_first_valid env rest dest := by
  intro env dest u rest e herr
  by_cases hu : u = ""
  · simp only [ImageResolver.pick_first_valid]
    rw [ImageResolver.pick_first_valid_aux, if_pos (Or.inl hu)]
  · simp only [ImageResolver.pick_first_valid]
    rw [ImageResolver.pick_first_valid_aux, if_neg (by simp [hu]), herr]
    exact pick_first_valid_aux_skip env dest u
      (fun b hh => by rw [herr] at hh; exact Except.noConfusion hh) rest []

/-- Witness for the amended C2: a connection error on the first
candidate leaves the second one to validate. -/
theorem transport_failure_skips_candidate_witness :
    ImageResolver.pick_first_valid mixedEnv ["https://bad/x.jpg", "https://good/y.jpg"] "d"
      = some "https://good/y.jpg" :=
  (transport_failure_skips_candidate mixedEnv "d" "https://bad/x.jpg"
    ["https://good/y.jpg"] .connection (by decide)).trans (by decide)

/-- Counterexample to C3 as stated: with every byte-length, decode,
resolution, aspect and face check passing and the original bytes
written, a failing re-encode chain makes `_download_and_validate`
report `False` — the candidate is rejected — even though the originally
written bytes are still at the destination.  The claim's "the call
reports success (returns true)" is refuted: the single `try` in
`_strip_exif_and_save` wraps both the write and the re-encode, and its
handler returns `False`. -/
theorem reencode_failure_rejects_cx :
    ImageResolver.download_and_validate reencodeFailEnv "https://a/b.jpg" "d"
      = .ok (false, some okBytes) := by
  norm_num [ImageResolver.download_and_validate, ImageResolver.strip_exif_and_save,
    reencodeFailEnv, fullCheckEnv, pinEnv, okBytes]

/-- C3 as amended: once a candidate is accepted and its original bytes
are written, a failure of the PIL re-encode chain leaves those bytes on
disk but makes the call report failure (return `False`), so the
candidate is treated as rejected; identically in both variants. -/
theorem reencode_failure_keeps_bytes_reports_failure :
    ∀ (envP : ImageResolver.Env) (envF : ImageResolverFree.Env)
      (content : Bytes) (dest : String),
      (envP.pilOk = true → envP.writeOk content = true → envP.reencode content = none →
        ImageResolver.strip_exif_and_save envP content dest = (false, some content))
      ∧ (envF.pilOk = true → envF.writeOk content = true → envF.reencode content = none →
        ImageResolverFree.strip_exif_and_save envF content dest = (false, some content)) := by
  intro envP envF content dest
  constructor
  · intro h1 h2 h3
    rw [ImageResolver.strip_exif_and_save, if_pos h2, if_pos h1, h3]
  · intro h1 h2 h3
    rw [ImageResolverFree.strip_exif_and_save, if_pos h2, if_pos h1, h3]

/-- Witness for the amended C3 at a concrete environment in each
variant. -/
theorem reencode_failure_keeps_bytes_witness :
    ImageResolver.strip_exif_and_save reencodeFailEnv okBytes "d" = (false, some okBytes)
    ∧ ImageResolverFree.strip_exif_and_save freeReencodeFailEnv okBytes "d"
      = (false, some okBytes) :=
  ⟨(reencode_failure_keeps_bytes_reports_failure reencodeFailEnv freeReencodeFailEnv
      okBytes "d").1 (by decide) (by decide) (by decide),
   (reencode_failure_keeps_bytes_reports_failure reencodeFailEnv freeReencodeFailEnv
      okBytes "d").2 (by decide) (by decide) (by decide)⟩

/-- Counterexample to C4 as stated: a candidate of exactly 30000 bytes
— the byte-length threshold `30_000` of the source — is accepted, not
rejected, because the check is the strict `len(content) < 30_000`. -/
theorem byte_floor_boundary_cx :
    ImageResolver.download_and_validate fullCheckEnv "https://a/b.jpg" "d"
      = .ok (true, some okBytes) := by
  norm_num [ImageResolver.download_and_validate, ImageResolver.strip_exif_and_save,
    fullCheckEnv, pinEnv, okBytes]

/-- C4 as amended: a downloaded candidate strictly below the 30000-byte
threshold is rejected; a candidate of exactly 30000 bytes is accepted
when the remaining checks pass (stated here with the optional decode
capability absent and a succeeding write path); in both variants. -/
theorem byte_floor_boundary :
    ∀ (envP : ImageResolver.Env) (envF : ImageResolverFree.Env)
      (url dest : String) (content : Bytes),
      (envP.download url = .ok content → content.len < 30000 →
        ImageResolver.download_and_validate envP url dest = .ok (false, none))
      ∧ (envP.download url = .ok content → content.len = 30000 → envP.opencvOk = false →
          envP.writeOk content = true → envP.pilOk = false →
          ImageResolver.download_and_validate envP url dest = .ok (true, some content))
      ∧ (envF.download url = .ok content → content.len < 30000 →
          ImageResolverFree.download_and_validate envF url dest = .ok (false, none))
      ∧ (envF.download url = .ok content → content.len = 30000 → envF.opencvOk = false →
          envF.writeOk content = true → envF.pilOk = false →
          ImageResolverFree.download_and_validate envF url dest = .ok (true, some content)) := by
  intro envP envF url dest content
  refine ⟨fun hdl hlen => ?_, fun hdl hlen hcv hw hp => ?_,
          fun hdl hlen => ?_, fun hdl hlen hcv hw hp => ?_⟩
  · rw [ImageResolver.download_and_validate]
    simp only [hdl]
    rw [if_pos hlen]
  · rw [ImageResolver.download_and_validate]
    simp only [hdl]
    rw [if_neg (by omega), hcv]
    simp only [Bool.false_eq_true, if_false]
    rw [ImageResolver.strip_exif_and_save, if_pos hw]
    simp [hp]
  · rw [ImageResolverFree.download_and_validate]
    simp only [hdl]
    rw [if_pos hlen]
  · rw [ImageResolverFree.download_and_validate]
    simp only [hdl]
    rw [if_neg (by omega), hcv]
    simp only [Bool.false_eq_true, if_false]
    rw [ImageResolverFree.strip_exif_and_save, if_pos hw]
    simp [hp]

/-- Witness for the amended C4 at concrete environments: 29999 bytes
rejected, 30000 bytes accepted, in both variants. -/
theorem byte_floor_boundary_witness :
    ImageResolver.download_and_validate tinyEnv "u" "d" = .ok (false, none)
    ∧ ImageResolver.download_and_validate pinEnv "u" "d" = .ok (true, some okBytes)
    ∧ ImageResolverFree.download_and_validate freeTinyEnv "u" "d" = .ok (false, none)
    ∧ ImageResolverFree.download_and_validate freePinEnv "u" "d" = .ok (true, some okBytes) :=
  ⟨(byte_floor_boundary tinyEnv freeTinyEnv "u" "d" tinyBytes).1 (by decide) (by decide),
   (byte_floor_boundary pinEnv freePinEnv "u" "d" okBytes).2.1 (by decide) (by decide)
     (by decide) (by decide) (by decide),
   (byte_floor_boundary tinyEnv freeTinyEnv "u" "d" tinyBytes).2.2.1 (by decide) (by decide),
   (byte_floor_boundary pinEnv freePinEnv "u" "d" okBytes).2.2.2 (by decide) (by decide)
     (by decide) (by decide) (by decide)⟩

theorem paid_validate_geometry_ok (env : ImageResolver.Env) (url dest : String)
    (content : Bytes) (h w : Nat)
    (hdl : env.download url = .ok content) (hlen : ¬ content.len < 30000)
    (hcv : env.opencvOk = true) (hdec : env.decode content = some (h, w))
    (hsz : ¬ h * w = 0) (hmin : ¬ min h w < 900)
    (hface : env.faceCount content = none ∨ env.faceCount content = some 0)
    (hasp : ¬ ((w : ℚ) / (h : ℚ) < 4 / 5 ∨ (w : ℚ) / (h : ℚ) > 11 / 5)) :
    ImageResolver.download_and_validate env url dest
      = .ok (ImageResolver.strip_exif_and_save env content dest) := by
  have h900 : 900 ≤ h := le_trans (Nat.not_lt.mp hmin) (min_le_left h w)
  have hmax : max h 1 = h := max_eq_left (le_trans (by norm_num) h900)
  rw [ImageResolver.download_and_validate]
  simp only [hdl]
  rw [if_neg hlen, if_pos hcv]
  simp only [hdec]
  rw [if_neg hsz, if_neg hmin, hmax, if_neg hasp]
  rcases hface with hfc | hfc
  · simp only [hfc]
  · simp only [hfc]
    rw [if_neg (by omega)]

theorem paid_validate_aspect_reject (env : ImageResolver.Env) (url dest : String)
    (content : Bytes) (h w : Nat)
    (hdl : env.download url = .ok content) (hlen : ¬ content.len < 30000)
    (hcv : env.opencvOk = true) (hdec : env.decode content = some (h, w))
    (hsz : ¬ h * w = 0) (hmin : ¬ min h w < 900)
    (hasp : (w : ℚ) / (h : ℚ) < 4 / 5 ∨ (w : ℚ) / (h : ℚ) > 11 / 5) :
    ImageResolver.download_and_validate env url dest = .ok (false, none) := by
  have h900 : 900 ≤ h := le_trans (Nat.not_lt.mp hmin) (min_le_left h w)
  have hmax : max h 1 = h := max_eq_left (le_trans (by norm_num) h900)
  rw [ImageResolver.download_and_validate]
  simp only [hdl]
  rw [if_neg hlen, if_pos hcv]
  simp only [hdec]
  rw [if_neg hsz, if_neg hmin, hmax, if_pos hasp]

theorem free_validate_geometry_ok (env : ImageResolverFree.Env) (url dest : String)
    (content : Bytes) (h w : Nat)
    (hdl : env.download url = .ok content) (hlen : ¬ content.len < 30000)
    (hcv : env.opencvOk = true) (hdec : env.decode content = some (h, w))
    (hsz : ¬ h * w = 0) (hmin : ¬ min h w < ImageResolverFree.MIN_EDGE)
    (hasp : ¬ ((w : ℚ) / (h : ℚ) < 4 / 5 ∨ (w : ℚ) / (h : ℚ) > 11 / 5)) :
    ImageResolverFree.download_and_validate env url dest
      = .ok (ImageResolverFree.strip_exif_and_save env content dest) := by
  have h900 : 900 ≤ h := le_trans (Nat.not_lt.mp hmin) (min_le_left h w)
  have hmax : max h 1 = h := max_eq_left (le_trans (by norm_num) h900)
  rw [ImageResolverFree.download_and_validate]
  simp only [hdl]
  rw [if_neg hlen, if_pos hcv]
  simp only [hdec]
  rw [if_neg hsz, if_neg hmin, hmax, if_neg hasp]

theorem free_validate_aspect_reject (env : ImageResolverFree.Env) (url dest : String)
    (content : Bytes) (h w : Nat)
    (hdl : env.download url = .ok content) (hlen : ¬ content.len < 30000)
    (hcv : env.opencvOk = true) (hdec : env.decode content = some (h, w))
    (hsz : ¬ h * w = 0) (hmin : ¬ min h w < ImageResolverFree.MIN_EDGE)
    (hasp : (w : ℚ) / (h : ℚ) < 4 / 5 ∨ (w : ℚ) / (h : ℚ) > 11 / 5) :
    ImageResolverFree.download_and_validate env url dest = .ok (false, none) := by
  have h900 : 900 ≤ h := le_trans (Nat.not_lt.mp hmin) (min_le_left h w)
  have hmax : max h 1 = h := max_eq_left (le_trans (by norm_num) h900)
  rw [ImageResolverFree.download_and_validate]
  simp only [hdl]
  rw [if_neg hlen, if_pos hcv]
  simp only [hdec]
  rw [if_neg hsz, if_neg hmin, hmax, if_pos hasp]

/-- C5: for every decodable candidate with width `w` and height `h`
passing the other checks, validate-and-store accepts when `w / h` is
exactly 0.8 (= 4/5) or exactly 2.2 (= 11/5) and rejects when it is 0.79
or 2.21, in both variants.  The source compares the float `w / max(h, 1)`
against the literals 0.8 and 2.2; the embedding computes in `ℚ`, which
agrees with the correctly-rounded double comparison for all pixel
dimensions (a disagreement would need `w / h` within one ulp of the
literal, i.e. `h` beyond 10^15). -/
theorem aspect_ratio_boundary :
    ∀ (envP : ImageResolver.Env) (envF : ImageResolverFree.Env)
      (url dest : String) (content : Bytes) (h w : Nat),
      (envP.download url = .ok content → ¬ content.len < 30000 → envP.opencvOk = true →
        envP.decode content = some (h, w) → ¬ h * w = 0 → ¬ min h w < 900 →
        (envP.faceCount content = none ∨ envP.faceCount content = some 0) →
        envP.writeOk content = true → envP.pilOk = false →
        ((((w : ℚ) / (h : ℚ) = 4 / 5 ∨ (w : ℚ) / (h : ℚ) = 11 / 5) →
           ImageResolver.download_and_validate envP url dest = .ok (true, some content))
         ∧ (((w : ℚ) / (h : ℚ) = 79 / 100 ∨ (w : ℚ) / (h : ℚ) = 221 / 100) →
           ImageResolver.download_and_validate envP url dest = .ok (false, none))))
      ∧ (envF.download url = .ok content → ¬ content.len < 30000 → envF.opencvOk = true →
        envF.decode content = some (h, w) → ¬ h * w = 0 →
        ¬ min h w < ImageResolverFree.MIN_EDGE →
        envF.writeOk content = true → envF.pilOk = false →
        ((((w : ℚ) / (h : ℚ) = 4 / 5 ∨ (w : ℚ) / (h : ℚ) = 11 / 5) →
           ImageResolverFree.download_and_validate envF url dest = .ok (true, some content))
         ∧ (((w : ℚ) / (h : ℚ) = 79 / 100 ∨ (w : ℚ) / (h : ℚ) = 221 / 100) →
           ImageResolverFree.download_and_validate envF url dest = .ok (false, none)))) := by
  intro envP envF url dest content h w
  constructor
  · intro hdl hlen hcv hdec hsz hmin hface hwr hp
    have hstrip : ImageResolver.strip_exif_and_save envP content dest
        = (true, some content) := by
      rw [ImageResolver.strip_exif_and_save, if_pos hwr]
      simp [hp]
    constructor
    · intro hrat
      rw [paid_validate_geometry_ok envP url dest content h w hdl hlen hcv hdec hsz hmin hface
        (by rcases hrat with h4 | h4 <;> rw [h4] <;> norm_num), hstrip]
    · intro hrat
      exact paid_validate_aspect_reject envP url dest content h w hdl hlen hcv hdec hsz hmin
        (by rcases hrat with h4 | h4 <;> rw [h4] <;> norm_num)
  · intro hdl hlen hcv hdec hsz hmin hwr hp
    have hstrip : ImageResolverFree.strip_exif_and_save envF content dest
        = (true, some content) := by
      rw [ImageResolverFree.strip_exif_and_save, if_pos hwr]
      simp [hp]
    constructor
    · intro hrat
      rw [free_validate_geometry_ok envF url dest content h w hdl hlen hcv hdec hsz hmin
        (by rcases hrat with h4 | h4 <;> rw [h4] <;> norm_num), hstrip]
    · intro hrat
      exact free_validate_aspect_reject envF url dest content h w hdl hlen hcv hdec hsz hmin
        (by rcases hrat with h4 | h4 <;> rw [h4] <;> norm_num)

/-- Witness for C5: 1600 x 2000 (ratio 0.8) accepted and 1580 x 2000
(ratio 0.79) rejected in the paid variant; 2200 x 1000 (ratio 2.2)
accepted and 2210 x 1000 (ratio 2.21) rejected in the free variant. -/
theorem aspect_ratio_boundary_witness :
    ImageResolver.download_and_validate aspect08Env "u" "d" = .ok (true, some okBytes)
    ∧ ImageResolver.download_and_validate aspect079Env "u" "d" = .ok (false, none)
    ∧ ImageResolverFree.download_and_validate freeAspect22Env "u" "d"
      = .ok (true, some okBytes)
    ∧ ImageResolverFree.download_and_validate freeAspect221Env "u" "d"
      = .ok (false, none) :=
  ⟨((aspect_ratio_boundary aspect08Env freeAspect22Env "u" "d" okBytes 2000 1600).1
      (by decide) (by decide) (by decide) (by decide) (by decide) (by decide) (by decide)
      (by decide) (by decide)).1 (Or.inl (by norm_num)),
   ((aspect_ratio_boundary aspect079Env freeAspect221Env "u" "d" okBytes 2000 1580).1
      (by decide) (by decide) (by decide) (by decide) (by decide) (by decide) (by decide)
      (by decide) (by decide)).2 (Or.inl (by norm_num)),
   ((aspect_ratio_boundary aspect08Env freeAspect22Env "u" "d" okBytes 1000 2200).2
      (by decide) (by decide) (by decide) (by decide) (by decide) (by decide) (by decide)
      (by decide)).1 (Or.inr (by norm_num)),
   ((aspect_ratio_boundary aspect079Env freeAspect221Env "u" "d" okBytes 1000 2210).2
      (by decide) (by decide) (by decide) (by decide) (by decide) (by decide) (by decide)
      (by decide)).2 (Or.inr (by norm_num))⟩

/-- Counterexample to C6 as stated: for the record
`{brand: "Glock", model: "19"}` the computed override key is
`"glock-19"` — `_slugify` strips the trailing dash — so the stated map
`{"glock-19-": url}` never matches and resolution falls through all
tiers to `(None, None)` even though the pinned URL validates in this
environment; moreover the destination filename carries a single dash
before the hash (`images/glock-19-<hash>.jpg`), not the claimed double
dash. -/
theorem override_scenario_cx :
    ImageResolver.resolve_image pinEnv .absent
        [("glock-19-", "https://example.com/g19.jpg")] glock19 = .ok (none, none)
    ∧ ImageResolver.download_and_validate pinEnv "https://example.com/g19.jpg"
        (ImageResolver.destPath pinEnv glock19) = .ok (true, some okBytes)
    ∧ overrideKeyOf glock19 = "glock-19"
    ∧ ImageResolver.destPath pinEnv glock19 = "images/glock-19-abcdef1234.jpg" :=
  ⟨by decide, by decide, by decide, by decide⟩

/-- C6 as amended: with the override map keyed by the actual computed
key `"glock-19"` and a pinned URL that downloads and validates, the
result is `(images/glock-19-<hash of "Glock 19">.jpg, pinned URL)` —
one dash between the slug and the hash. -/
theorem override_scenario_amended :
    (∀ (env : ImageResolver.Env) (fs : ImageResolver.AllowFileState) (b : Option Bytes),
      ImageResolver.download_and_validate env "https://example.com/g19.jpg"
        (ImageResolver.destPath env glock19) = .ok (true, b) →
      ImageResolver.resolve_image env fs
        [("glock-19", "https://example.com/g19.jpg")] glock19
        = .ok (some (ImageResolver.destPath env glock19), some "https://example.com/g19.jpg"))
    ∧ ∀ (env : ImageResolver.Env),
      ImageResolver.destPath env glock19
        = "images/glock-19-" ++ env.hash "Glock 19" ++ ".jpg" := by
  constructor
  · intro env fs b hdl
    exact resolve_image_override_hit env fs _ glock19 "https://example.com/g19.jpg" b
      (by decide) (by decide) (by decide) hdl
  · intro env
    have h2 : pyStrip glock19.brand ++ " " ++ pyStrip glock19.model = "Glock 19" := by decide
    have h1 : slugOf glock19 = "glock-19" := by decide
    rw [ImageResolver.destPath, h2, h1,
      show (("images/" ++ "glock-19") ++ "-" : String) = "images/glock-19-" from by decide]

/-- Witness for the amended C6 at a concrete environment. -/
theorem override_scenario_witness :
    ImageResolver.resolve_image pinEnv .absent
        [("glock-19", "https://example.com/g19.jpg")] glock19
      = .ok (some "images/glock-19-abcdef1234.jpg", some "https://example.com/g19.jpg") :=
  (override_scenario_amended.1 pinEnv .absent (some okBytes) (by decide)).trans (by decide)

/-- Counterexample to C7 as stated: the two variants do not share the
brand-to-domain selection rule.  For the policy `{"glock": [...]}` and
brand `"Glock Inc"`, the paid variant's substring rule selects the
glock domains, while the free variant's exact dictionary lookup of the
full lowercased brand selects nothing. -/
theorem manu_selection_free_differs_cx :
    ImageResolverFree.manuDomains
        { manufacturer_domains := [("glock", ["us.glock.com", "glock.com"])] } "Glock Inc"
      = []
    ∧ ImageResolver.manuSites [("glock", ["us.glock.com", "glock.com"])]
        (pyLower "Glock Inc")
      = ["us.glock.com", "glock.com"] :=
  ⟨by decide, by decide⟩

/-- C7 as amended: the manufacturer tier of the search-based (paid)
variant queries exactly the union of the domain lists of every
trust-policy key occurring as a substring of the lowercased brand,
order-preserving and de-duplicated: membership is characterised by a
matching key, the selection has no duplicates, and it is a sublist of
the in-order concatenation of the matching keys' domain lists.  (The
no-search variant instead looks the full lowercased brand up exactly,
as the counterexample shows.) -/
theorem manu_selection_substring_union :
    ∀ (allowManu : List (String × List String)) (brandLc : String),
      (∀ d, d ∈ ImageResolver.manuSites allowManu brandLc
        ↔ ∃ p, p ∈ allowManu ∧ strContains brandLc p.1 = true ∧ d ∈ p.2)
      ∧ (ImageResolver.manuSites allowManu brandLc).Nodup
      ∧ List.Sublist (ImageResolver.manuSites allowManu brandLc)
          (((allowManu.filter (fun p => strContains brandLc p.1)).map Prod.snd).flatten) := by
  intro allowManu brandLc
  have hfold : ImageResolver.manuSites allowManu brandLc
      = dedupKeepFirst
          (((allowManu.filter (fun p => strContains brandLc p.1)).map Prod.snd).flatten) := by
    rw [ImageResolver.manuSites, foldl_extend_eq]
    rfl
  refine ⟨?_, ?_, ?_⟩
  · intro d
    rw [hfold, dedupKeepFirst_mem]
    constructor
    · intro hm
      rcases List.mem_flatten.mp hm with ⟨l, hl, hdl⟩
      rcases List.mem_map.mp hl with ⟨p, hp, hpl⟩
      rcases List.mem_filter.mp hp with ⟨hpa, hpf⟩
      exact ⟨p, hpa, hpf, hpl ▸ hdl⟩
    · rintro ⟨p, hpa, hpf, hdl⟩
      exact List.mem_flatten.mpr ⟨p.2, List.mem_map.mpr
        ⟨p, List.mem_filter.mpr ⟨hpa, hpf⟩, rfl⟩, hdl⟩
  · rw [hfold]
    exact dedupKeepFirst_nodup _
  · rw [hfold]
    exact dedupKeepFirst_sublist _

/-- C8: loading the trust policy is total and falls back to the
built-in defaults on every failure state of the override file; for a
well-formed file (list-valued entries, no key collisions after
lowercasing), each present manufacturer key fully replaces the
corresponding default list, absent keys keep their defaults, and a
present (absent) `retailer_domains` key replaces (keeps) the retailer
list. -/
theorem load_allowlists_fallback_and_replace :
    (ImageResolver.load_allowlists .absent
      = (ImageResolver.DEFAULT_ALLOW_MANUFACTURERS, ImageResolver.DEFAULT_ALLOW_RETAILERS))
    ∧ (ImageResolver.load_allowlists .malformed
      = (ImageResolver.DEFAULT_ALLOW_MANUFACTURERS, ImageResolver.DEFAULT_ALLOW_RETAILERS))
    ∧ (ImageResolver.load_allowlists .notDict
      = (ImageResolver.DEFAULT_ALLOW_MANUFACTURERS, ImageResolver.DEFAULT_ALLOW_RETAILERS))
    ∧ (∀ (entries : List (String × ImageResolver.JEntry))
         (retail : Option ImageResolver.JEntry),
        (entries.map (fun p => pyLower p.1)).Nodup →
        (∀ (k : String) (l' : List String), (k, ImageResolver.JEntry.list l') ∈ entries →
          alookup (ImageResolver.load_allowlists (.parsed (some entries) retail)).1
            (pyLower k) = some l')
        ∧ (∀ k, k ∉ entries.map (fun p => pyLower p.1) →
          alookup (ImageResolver.load_allowlists (.parsed (some entries) retail)).1 k
            = alookup ImageResolver.DEFAULT_ALLOW_MANUFACTURERS k))
    ∧ (∀ (manu : Option (List (String × ImageResolver.JEntry))) (l : List String),
        (ImageResolver.load_allowlists (.parsed manu (some (.list l)))).2 = l)
    ∧ (∀ (manu : Option (List (String × ImageResolver.JEntry))),
        (ImageResolver.load_allowlists (.parsed manu none)).2
          = ImageResolver.DEFAULT_ALLOW_RETAILERS) := by
  refine ⟨rfl, rfl, rfl, ?_, fun manu l => rfl, fun manu => rfl⟩
  intro entries retail hnd
  exact ⟨fun k l' hmem => applyManuOverrides_mem entries _ k l' hmem hnd,
         fun k hk => applyManuOverrides_notin entries _ k hk⟩

/-- Witness for C8 on a concrete well-formed override file: the
(lowercased) `glock` entry is fully replaced, an untouched default key
keeps its default, and the retailer list is replaced. -/
theorem load_allowlists_witness :
    alookup (ImageResolver.load_allowlists sampleAllowFile).1 "glock"
      = some ["override.example"]
    ∧ alookup (ImageResolver.load_allowlists sampleAllowFile).1 "ruger"
      = some ["www.ruger.com", "ruger.com"]
    ∧ (ImageResolver.load_allowlists sampleAllowFile).2 = ["retail.example"] :=
  ⟨(load_allowlists_fallback_and_replace.2.2.2.1
      [("Glock", .list ["override.example"]), ("newbrand", .list ["new.example"]),
       ("cz", .nonList)] (some (.list ["retail.example"])) (by decide)).1
      "Glock" ["override.example"] (by decide),
   ((load_allowlists_fallback_and_replace.2.2.2.1
      [("Glock", .list ["override.example"]), ("newbrand", .list ["new.example"]),
       ("cz", .nonList)] (some (.list ["retail.example"])) (by decide)).2
      "ruger" (by decide)).trans (by decide),
   load_allowlists_fallback_and_replace.2.2.2.2.1
     (some [("Glock", .list ["override.example"]), ("newbrand", .list ["new.example"]),
       ("cz", .nonList)]) ["retail.example"]⟩

/-- C9: in the free local-index tier, when the exact
`brand-lower::model-lower` key is absent, the fallback selects the
first index key (in index order) that starts with the brand prefix
followed by `::` and contains the lowercased model as a substring —
first match wins — and that entry's image URL is tried; when it
validates, resolution returns it. -/
theorem index_fuzzy_fallback :
    ∀ (env : ImageResolverFree.Env) (overrides : List (String × String))
      (index : List (String × ImageResolverFree.IndexRec))
      (allow : ImageResolverFree.Allowlists) (g : GunRecord)
      (k₀ : String) (rec : ImageResolverFree.IndexRec) (img : String) (b : Option Bytes),
      pyStrip g.brand ≠ "" → pyStrip g.model ≠ "" →
      alookup overrides (overrideKeyOf g) = none →
      (index.map Prod.fst).contains
        (pyLower (pyStrip g.brand) ++ "::" ++ pyLower (pyStrip g.model)) = false →
      (index.map Prod.fst).find? (fun k =>
        pyStartsWith k (pyLower (pyStrip g.brand) ++ "::")
          && strContains k (pyLower (pyStrip g.model))) = some k₀ →
      alookup index k₀ = some rec →
      rec.image = some img → img ≠ "" →
      ImageResolverFree.download_and_validate env img (ImageResolverFree.destPath env g)
        = .ok (true, b) →
      ImageResolverFree.resolve_image env overrides index allow g
        = .ok (some (ImageResolverFree.destPath env g), some img) := by
  intro env overrides index allow g k₀ rec img b hb hm hov hcont hfind hlook himg hne hdl
  have hkey : ImageResolverFree.indexKey index g = k₀ := by
    rw [ImageResolverFree.indexKey, if_neg (by rw [hcont]; exact Bool.false_ne_true), hfind]
    rfl
  exact free_resolve_index_hit env overrides index allow g rec img b
    (by simp [hb, hm]) hov (by rw [hkey]; exact hlook) himg hne hdl

/-- Witness for C9: the record `{brand: "Glock", model: "G19"}` misses
the exact key `glock::g19` of `sampleIndex` but fuzzy-matches its key
`glock::g19 gen5`, whose image URL validates. -/
theorem index_fuzzy_fallback_witness :
    ImageResolverFree.resolve_image freePinEnv [] sampleIndex {} glockG19
      = .ok (some "images/glock-g19-beefbeef00.jpg", some "https://i.example/x.jpg") :=
  (index_fuzzy_fallback freePinEnv [] sampleIndex {} glockG19 "glock::g19 gen5"
    { image := some "https://i.example/x.jpg" } "https://i.example/x.jpg" (some okBytes)
    (by decide) (by decide) (by decide) (by decide) (by decide) (by decide) (by decide)
    (by decide) (by decide)).trans (by decide)

/-- Counterexample to C10 as stated: when an override file empties
every allowlist, the union of trust-policy hosts is empty, the
image-search filter `if allow and host not in allow` is disabled, and
the paid resolver fetches and returns a candidate hosted on
`evil.com`, a host on no list. -/
theorem image_search_unfiltered_cx :
    ImageResolver.resolve_image evilEnv emptiedAllowFile [] glock19
      = .ok (some "images/glock-19-abcdef1234.jpg", some "https://evil.com/img.jpg")
    ∧ dedupKeepFirst ((ImageResolver.load_allowlists emptiedAllowFile).2
        ++ ((ImageResolver.load_allowlists emptiedAllowFile).1.map Prod.snd).flatten)
      = [] :=
  ⟨by decide, by decide⟩

/-- C10 as amended: every page URL the site-restricted web search
returns has its host in the site list handed to the search; and
whenever the allow-host union handed to the image search is non-empty,
every returned candidate URL comes from a response item whose host-page
host is in that union (with an empty union the filter is disabled, as
the counterexample shows). -/
theorem search_host_filters :
    (∀ (env : ImageResolver.Env) (query : String) (sites urls : List String),
      ImageResolver.bing_web_search env query sites = .ok urls →
      ∀ u ∈ urls, netloc u ∈ sites)
    ∧ (∀ (env : ImageResolver.Env) (query : String) (allowHosts cands : List String)
         (items : List ImageResolver.ImgItem),
      allowHosts ≠ [] → env.image query = .ok items →
      ImageResolver.bing_image_search env query allowHosts = .ok cands →
      ∀ c ∈ cands, ∃ v, v ∈ items
        ∧ netloc (v.hostPageUrl.getD "") ∈ allowHosts
        ∧ ImageResolver.pyOrStr v.contentUrl v.thumbnailUrl = some c) := by
  constructor
  · intro env query sites urls hok u hu
    rw [ImageResolver.bing_web_search] at hok
    by_cases ha : env.apiKey = false
    · rw [if_pos ha] at hok
      have h0 := Except.ok.inj hok
      rw [← h0] at hu
      exact absurd hu (List.not_mem_nil u)
    · rw [if_neg ha] at hok
      by_cases hs : sites = []
      · rw [if_pos hs] at hok
        have h0 := Except.ok.inj hok
        rw [← h0] at hu
        exact absurd hu (List.not_mem_nil u)
      · rw [if_neg hs] at hok
        cases hweb : env.web (query ++ ImageResolver.siteFilter sites) with
        | error e => rw [hweb] at hok; exact Except.noConfusion hok
        | ok items =>
          simp only [hweb] at hok
          rw [← Except.ok.inj hok] at hu
          rcases List.mem_filterMap.mp hu with ⟨it, hit, hf⟩
          cases hurl : it.url with
          | none => simp only [hurl] at hf; exact Option.noConfusion hf
          | some url =>
            simp only [hurl] at hf
            by_cases h0 : url = ""
            · rw [if_pos h0] at hf; exact Option.noConfusion hf
            · rw [if_neg h0] at hf
              by_cases hcont : sites.contains (netloc url) = true
              · rw [if_pos hcont] at hf
                rw [← Option.some.inj hf]
                simpa using hcont
              · rw [if_neg hcont] at hf; exact Option.noConfusion hf
  · intro env query allowHosts cands items hne himg hok c hc
    rw [ImageResolver.bing_image_search] at hok
    by_cases ha : env.apiKey = false
    · rw [if_pos ha] at hok
      have h0 := Except.ok.inj hok
      rw [← h0] at hc
      exact absurd hc (List.not_mem_nil c)
    · rw [if_neg ha] at hok
      simp only [himg] at hok
      rw [← Except.ok.inj hok] at hc
      rcases List.mem_filterMap.mp hc with ⟨v, hv, hf⟩
      by_cases hcond : allowHosts ≠ []
        ∧ ¬ allowHosts.contains (netloc (v.hostPageUrl.getD "")) = true
      · rw [if_pos hcond] at hf; exact Option.noConfusion hf
      · rw [if_neg hcond] at hf
        have hc2 : allowHosts.contains (netloc (v.hostPageUrl.getD "")) = true := by
          by_contra hcc
          exact hcond ⟨hne, hcc⟩
        cases hpo : ImageResolver.pyOrStr v.contentUrl v.thumbnailUrl with
        | none => simp only [hpo] at hf; exact Option.noConfusion hf
        | some s =>
          simp only [hpo] at hf
          by_cases h0 : s = ""
          · rw [if_pos h0] at hf; exact Option.noConfusion hf
          · rw [if_neg h0] at hf
            rw [← Option.some.inj hf]
            exact ⟨v, hv, by simpa using hc2, hpo⟩

/-- Witness for the amended C10: a web-search result on a listed
retailer host is kept with its host in the site list, and an
image-search candidate passes the non-empty allow filter through its
host-page host. -/
theorem search_host_filters_witness :
    netloc "https://www.ruger.com/p1" ∈ ["www.ruger.com"]
    ∧ ∃ v, v ∈ [evilItem] ∧ netloc (v.hostPageUrl.getD "") ∈ ["evil.com"]
        ∧ ImageResolver.pyOrStr v.contentUrl v.thumbnailUrl
          = some "https://evil.com/img.jpg" :=
  ⟨search_host_filters.1 webEnv "q" ["www.ruger.com"] ["https://www.ruger.com/p1"]
    (by decide) "https://www.ruger.com/p1" (by decide),
   search_host_filters.2 evilEnv "q" ["evil.com"] ["https://evil.com/img.jpg"] [evilItem]
    (by decide) (by decide) (by decide) "https://evil.com/img.jpg" (by decide)⟩
